import Mathlib

/-!
Shallow embedding of the price-monitoring / alert-triggering core of the
`trade_bot` repository, together with proofs of the specification claims.

Conventions of the embedding:
* Python floats (prices, timestamps) are modelled as rationals (`ℚ`).
* Wall-clock / monotonic instants are explicit arguments; the market-hours
  oracle that `_process_price` consults at evaluation time is passed as a
  function `String → Bool` (exchange code → currently open).
* The mutable module-level budget and rate-limiter state of
  `bot/services/twelvedata.py` is threaded explicitly through the functions.
* Network responses are inputs (oracle parameters): a provider call is
  modelled by the value the surrounding code extracts from its response.
-/

namespace TradeBot

/-! ### Data model (`bot/database.py`, table `alerts`) -/

/-- Alert direction, the `direction` column: `"above"` or `"below"`. -/
inductive Direction where
  | above
  | below
deriving DecidableEq, Repr

/-- A row of the `alerts` table (fields relevant to the monitoring core). -/
structure Alert where
  id            : Nat
  user_id       : Nat
  ticker        : String
  exchange      : String
  company_name  : String
  target_price  : ℚ
  currency      : String
  direction     : Direction
  current_price : Option ℚ
  last_checked  : ℚ
  is_active     : Bool
deriving DecidableEq, Repr

/-- `Database.get_all_active_alerts`: `SELECT ... WHERE a.is_active = 1`. -/
def get_all_active_alerts (db : List Alert) : List Alert :=
  db.filter (fun a => a.is_active)

/-- `Database.update_alert_check`: sets `current_price` and `last_checked`
on the row (the SQL `UPDATE ... WHERE id = ?`, applied here to the row). -/
def update_alert_check (a : Alert) (current_price : ℚ) (now : ℚ) : Alert :=
  { a with current_price := some current_price, last_checked := now }

/-- `Database.deactivate_alert`: `UPDATE alerts SET is_active = 0`. -/
def deactivate_alert (a : Alert) : Alert :=
  { a with is_active := false }

/-! ### Price update and trigger evaluation
(`bot/services/price_checker.py`, `_process_price` / `_send_notification`) -/

/-- Outcome of `_process_price` on one alert: the updated row, and whether a
trigger event was emitted to the notification dispatcher
(`_send_notification` deactivates the alert and then attempts delivery;
delivery failure is caught and does not undo the emission). -/
structure ProcOutcome where
  alert    : Alert
  notified : Bool
deriving DecidableEq, Repr

/-- `_process_price(bot, db, alert, current_price)` executed at instant `now`
with market-hours oracle `isOpen` (the value `is_market_open` returns for an
exchange code at this instant). Mirrors the source: first
`db.update_alert_check`, then the open-market gate, then the trigger test,
then `_send_notification` (which deactivates). -/
def _process_price (a : Alert) (current_price : ℚ) (now : ℚ)
    (isOpen : String → Bool) : ProcOutcome :=
  let a1 := update_alert_check a current_price now
  if ¬ isOpen a.exchange then ⟨a1, false⟩
  else if (a.direction = .above ∧ a.target_price ≤ current_price)
        ∨ (a.direction = .below ∧ current_price ≤ a.target_price) then
    ⟨deactivate_alert a1, true⟩
  else ⟨a1, false⟩

/-! ### One monitoring cycle as a step relation (for the latch claim) -/

/-- Environment of one monitoring cycle: the instant of the cycle, the merged
per-ticker provider responses fetched this cycle, the market-hours oracle,
and the per-user refresh intervals (`interval_ru`, `interval_us` from the
settings join, defaulted `60` / `180`). -/
structure CycleEnv where
  now       : ℚ
  prices    : String → Option ℚ
  isOpen    : String → Bool
  intervals : Nat → ℚ × ℚ
deriving Inhabited

/-- Refresh interval applicable to an alert (`interval_ru` for MOEX,
`interval_us` otherwise), as in `_run_yahoo_moex`. -/
def alertInterval (env : CycleEnv) (a : Alert) : ℚ :=
  if a.exchange = "MOEX" then (env.intervals a.user_id).1
  else (env.intervals a.user_id).2

/-- Due test of `_run_yahoo_moex`: `now - last >= interval`. -/
def isDue (env : CycleEnv) (a : Alert) : Bool :=
  alertInterval env a ≤ env.now - a.last_checked

/-- Effect of one cycle on a single row: rows are selected only when active
(`get_all_active_alerts`) and due, and processed only when the providers
returned a price for their ticker; all other rows are untouched. -/
def processAlert (env : CycleEnv) (a : Alert) : ProcOutcome :=
  if a.is_active ∧ isDue env a then
    match env.prices a.ticker with
    | some p => _process_price a p env.now env.isOpen
    | none   => ⟨a, false⟩
  else ⟨a, false⟩

/-- One monitoring cycle over the whole alert table: the new table, and the
ids of the alerts for which a trigger event was emitted. -/
def runCycle (env : CycleEnv) (db : List Alert) : List Alert × List Nat :=
  (db.map (fun a => (processAlert env a).alert),
   (db.filter (fun a => (processAlert env a).notified)).map (fun a => a.id))

/-- Iterated monitoring cycles: final table and all emitted trigger ids. -/
def runCycles (envs : List CycleEnv) (db : List Alert) : List Alert × List Nat :=
  match envs with
  | [] => (db, [])
  | env :: rest =>
      let step := runCycle env db
      let tail := runCycles rest step.1
      (tail.1, step.2 ++ tail.2)

/-- A concrete alert used to instantiate boundary statements: direction
`above`, target `100.00`. -/
def sampleAlert : Alert :=
  { id := 1, user_id := 7, ticker := "AAPL", exchange := "NASDAQ",
    company_name := "Apple Inc", target_price := 100, currency := "USD",
    direction := .above, current_price := none, last_checked := 0,
    is_active := true }

/-! ### Market hours (`bot/services/market_hours.py`)

Instants are integer seconds counted from an epoch fixed at a Monday
00:00 UTC, so `datetime.weekday()` of the UTC instant `t` is
`(t / 86400) % 7` (Monday = 0, Saturday = 5, Sunday = 6). A `zoneinfo`
timezone is modelled by its UTC offset in seconds at the instant under
consideration; an exchange's configuration carries the list of offsets its
zone can assume (fixed offset for Moscow and Hong Kong, standard and
daylight offsets for New York). `now.astimezone(tz)` then has
seconds-of-local-day `(t + off) % 86400` and local weekday
`((t + off) / 86400) % 7`. -/

/-- One entry of `_EXCHANGE_GROUPS`: possible UTC offsets of the zone
(seconds), session open and close (seconds of local day), optional lunch
break (start, end in seconds of local day). -/
structure ExchangeConfig where
  offsets  : List Int
  openSec  : Int
  closeSec : Int
  lunch    : Option (Int × Int)
deriving DecidableEq, Repr

/-- `ZoneInfo("Europe/Moscow")`: fixed UTC+3. -/
def tzMoscow : List Int := [3 * 3600]

/-- `ZoneInfo("America/New_York")`: UTC−5 (EST) or UTC−4 (EDT). -/
def tzNewYork : List Int := [-5 * 3600, -4 * 3600]

/-- `ZoneInfo("Asia/Hong_Kong")`: fixed UTC+8. -/
def tzHongKong : List Int := [8 * 3600]

/-- MOEX group: Mon–Fri 10:00–18:40 MSK, no lunch. -/
def moexCfg : ExchangeConfig :=
  { offsets := tzMoscow, openSec := 10 * 3600, closeSec := 18 * 3600 + 40 * 60,
    lunch := none }

/-- US group (NYSE/NASDAQ/NYSE ARCA/NYSE MKT/CBOE): Mon–Fri 09:30–16:00 ET. -/
def usCfg : ExchangeConfig :=
  { offsets := tzNewYork, openSec := 9 * 3600 + 30 * 60, closeSec := 16 * 3600,
    lunch := none }

/-- HK group (HKEX/HKSE): Mon–Fri 09:30–16:00 HKT, lunch 12:00–13:00. -/
def hkCfg : ExchangeConfig :=
  { offsets := tzHongKong, openSec := 9 * 3600 + 30 * 60, closeSec := 16 * 3600,
    lunch := some (12 * 3600, 13 * 3600) }

/-- `_EXCHANGE_GROUPS`: exchange code → timezone + hours. -/
def _EXCHANGE_GROUPS : List (String × ExchangeConfig) :=
  [("MOEX", moexCfg),
   ("NYSE", usCfg), ("NASDAQ", usCfg), ("NYSE ARCA", usCfg),
   ("NYSE MKT", usCfg), ("CBOE", usCfg),
   ("HKEX", hkCfg), ("HKSE", hkCfg)]

/-- `_BUFFER_MINUTES = 10`, in seconds. -/
def _BUFFER_SECONDS : Int := 10 * 60

/-- `str.upper()`, modelled character-wise (kernel-evaluable). -/
def pyUpper (s : String) : String := ⟨s.data.map Char.toUpper⟩

/-- `str.strip()`: drop leading and trailing whitespace. -/
def pyStrip (s : String) : String :=
  ⟨((s.data.dropWhile Char.isWhitespace).reverse.dropWhile
      Char.isWhitespace).reverse⟩

/-- `_EXCHANGE_GROUPS.get(exchange.upper().strip())`. -/
def lookupExchange (exchange : String) : Option ExchangeConfig :=
  _EXCHANGE_GROUPS.lookup (pyStrip (pyUpper exchange))

/-- `datetime.weekday()` of the UTC instant `t` (Monday = 0). -/
def utcWeekday (t : Int) : Int := (t / 86400) % 7

/-- Local weekday at UTC offset `off`. -/
def localWeekday (t off : Int) : Int := ((t + off) / 86400) % 7

/-- Seconds of local day at UTC offset `off`. -/
def localSecondsOfDay (t off : Int) : Int := (t + off) % 86400

/-- `is_market_open(exchange)` evaluated at UTC instant `t`, with `off` the
exchange zone's UTC offset at `t`. Mirrors the source: unknown exchange →
`True`; UTC weekend → `False`; outside `[open − buffer, close + buffer]`
(local time of day) → `False`; inside the lunch interval → `False`. -/
def is_market_open (exchange : String) (t off : Int) : Bool :=
  match lookupExchange exchange with
  | none => true
  | some cfg =>
    if 5 ≤ utcWeekday t then false
    else
      let nowL := localSecondsOfDay t off
      if nowL < cfg.openSec - _BUFFER_SECONDS
          ∨ cfg.closeSec + _BUFFER_SECONDS < nowL then false
      else
        match cfg.lunch with
        | some lunch =>
            if lunch.1 ≤ nowL ∧ nowL < lunch.2 then false else true
        | none => true

/-- A successful `_EXCHANGE_GROUPS` lookup yields one of the three group
configurations. -/
theorem lookupExchange_cases {exchange : String} {cfg : ExchangeConfig}
    (h : lookupExchange exchange = some cfg) :
    cfg = moexCfg ∨ cfg = usCfg ∨ cfg = hkCfg := by
  simp only [lookupExchange, _EXCHANGE_GROUPS, List.lookup] at h
  repeat' split at h
  all_goals simp_all

/-- C8: for every known exchange (one having a configured local timezone),
and every instant whose local weekday at that exchange is Saturday or
Sunday, `is_market_open` returns `false`; `off` ranges over the offsets the
exchange's zone can assume. -/
theorem weekend_closed (exchange : String) (cfg : ExchangeConfig) (t off : Int)
    (hcfg : lookupExchange exchange = some cfg) (hoff : off ∈ cfg.offsets)
    (hwk : 5 ≤ localWeekday t off) :
    is_market_open exchange t off = false := by
  have hc := lookupExchange_cases hcfg
  unfold is_market_open
  rw [hcfg]
  unfold localWeekday at hwk
  rcases hc with h | h | h <;> subst h <;>
    simp only [moexCfg, usCfg, hkCfg, tzMoscow, tzNewYork, tzHongKong,
      List.mem_cons, List.not_mem_nil, or_false] at hoff ⊢ <;>
    [skip; rcases hoff with hoff | hoff; skip] <;> subst hoff <;>
    simp only [utcWeekday, localSecondsOfDay, _BUFFER_SECONDS] <;>
    split_ifs <;> first
      | rfl
      | (exfalso; omega)

/-! ### TwelveData client (`bot/services/twelvedata.py`)

The module-level mutable dict `_budget = {"date": None, "used": 0}` is
threaded explicitly; `datetime.date.today()` is the explicit argument
`today` (a day index). Network traffic is an oracle input: the single-quote
call's parsed JSON is `Option QuoteResp` (`none` = request raised), and one
batch chunk's parsed result — everything `_fetch_chunk` extracts after its
own error/positivity filtering — is given by `fetch : List String →
List (String × ℚ)`. Chunk results are merged with `dict.update`; since
claims below never read individual merged entries, the merge is modelled as
concatenation of the per-chunk association lists. -/

/-- `TD_DAILY_LIMIT = 800`. -/
def TD_DAILY_LIMIT : Int := 800

/-- `TD_RESERVE_CREDITS = 100`. -/
def TD_RESERVE_CREDITS : Int := 100

/-- `_CHUNK_SIZE = 8`. -/
def _CHUNK_SIZE : Nat := 8

/-- The `_budget` dict: calendar date of the counter (`None` at start-up)
and credits used on that date. -/
structure Budget where
  date : Option Nat
  used : Nat
deriving DecidableEq, Repr

/-- The date-rollover normalization both `_budget_remaining` and
`_budget_spend` begin with: `if _budget["date"] != today: reset`. -/
def _budget_touch (b : Budget) (today : Nat) : Budget :=
  if b.date = some today then b else { date := some today, used := 0 }

/-- `_budget_remaining()`: remaining credits and the (possibly reset)
ledger. -/
def _budget_remaining (b : Budget) (today : Nat) : Int × Budget :=
  let b1 := _budget_touch b today
  (TD_DAILY_LIMIT - b1.used, b1)

/-- `_budget_spend(n)`. -/
def _budget_spend (b : Budget) (n : Nat) (today : Nat) : Budget :=
  let b1 := _budget_touch b today
  { b1 with used := b1.used + n }

/-- `budget_status()["available_for_batch"] = max(0, remaining - reserve)`. -/
def available_for_batch (b : Budget) (today : Nat) : Int :=
  max 0 ((_budget_remaining b today).1 - TD_RESERVE_CREDITS)

/-- `_EXCHANGE_CURRENCY`. -/
def _EXCHANGE_CURRENCY : List (String × String) :=
  [("NASDAQ", "USD"), ("NYSE", "USD"), ("NYSE ARCA", "USD"),
   ("NYSE MKT", "USD"), ("CBOE", "USD"), ("HKEX", "HKD"), ("HKSE", "HKD")]

/-- Parsed JSON body of one `/quote` response, as `get_stock_price` reads
it: whether `"code" in data or data.get("status") == "error"`, and the
fields it extracts (`None` models an absent key, `close` preparsed as a
number). -/
structure QuoteResp where
  isError    : Bool
  close      : Option ℚ
  symbol     : Option String
  name       : Option String
  currency   : Option String
  exchField  : Option String
deriving DecidableEq, Repr

/-- Normalized quote returned to callers (same shape for all providers). -/
structure Quote where
  ticker       : String
  company_name : String
  price        : ℚ
  currency     : String
  exchange     : String
deriving DecidableEq, Repr

/-- `get_stock_price(ticker)` — the metered single `/quote` lookup.
`apiKey` is the truthiness of `TWELVEDATA_API_KEY`; `resp = none` models a
raised request exception. Returns the optional quote and the ledger after
the call. -/
def get_stock_price (apiKey : Bool) (ticker : String) (b : Budget)
    (today : Nat) (resp : Option QuoteResp) : Option Quote × Budget :=
  if ¬ apiKey then (none, b)
  else
    let rb := _budget_remaining b today
    if rb.1 ≤ 0 then (none, rb.2)
    else
      let tick := pyStrip (pyUpper ticker)
      match resp with
      | none => (none, rb.2)
      | some d =>
        if d.isError then (none, rb.2)
        else
          match d.close with
          | none => (none, rb.2)
          | some close =>
            let b2 := _budget_spend rb.2 1 today
            let exch := d.exchField.getD ""
            let cur0 := d.currency.getD ""
            let cur := if cur0 = "" then (_EXCHANGE_CURRENCY.lookup exch).getD "USD"
                       else cur0
            (some { ticker := d.symbol.getD tick,
                    company_name := d.name.getD tick,
                    price := close, currency := cur, exchange := exch }, b2)

/-- The chunking comprehension
`[tickers[i:i + _CHUNK_SIZE] for i in range(0, len(tickers), _CHUNK_SIZE)]`. -/
def chunksOf (l : List String) : List (List String) :=
  if l.isEmpty then []
  else l.take _CHUNK_SIZE :: chunksOf (l.drop _CHUNK_SIZE)
termination_by l.length
decreasing_by
  simp only [List.length_drop]
  cases l with
  | nil => simp [List.isEmpty] at *
  | cons x xs => simp [_CHUNK_SIZE]; omega

/-- Result of `get_batch_prices`: the merged price map, the ledger after
the call, and the chunks actually dispatched as network requests. -/
structure BatchResult where
  result     : List (String × ℚ)
  budget     : Budget
  chunksSent : List (List String)
deriving DecidableEq, Repr

/-- `get_batch_prices(tickers)` — the metered batch `/price` fetch.
Mirrors the source: empty input or unset key → empty result, ledger
untouched; `available = remaining − reserve ≤ 0` → skip (empty result, no
requests); otherwise clip the list to `available` entries, chunk it, issue
one request per chunk, and charge the sum of the chunk sizes
(`credits_spent`) regardless of what the provider returned. -/
def get_batch_prices (apiKey : Bool) (tickers : List String) (b : Budget)
    (today : Nat) (fetch : List String → List (String × ℚ)) : BatchResult :=
  if tickers.isEmpty ∨ ¬ apiKey then ⟨[], b, []⟩
  else
    let rb := _budget_remaining b today
    let available : Int := rb.1 - TD_RESERVE_CREDITS
    if available ≤ 0 then ⟨[], rb.2, []⟩
    else
      let tickers' := if available < (tickers.length : Int)
                      then tickers.take available.toNat else tickers
      let chunks := chunksOf tickers'
      let result := (chunks.map fetch).flatten
      let credits_spent := (chunks.map List.length).sum
      ⟨result, _budget_spend rb.2 credits_spent today, chunks⟩

/-! ### Rate limiter (`_rate_limit` in `bot/services/twelvedata.py`)

`time.monotonic()` instants are rationals. `async with _rate_lock`
serializes callers, so one admission is a pure transformation of the
timestamp list. The only idealization: `await asyncio.sleep(wait)` resumes
exactly `wait` later, and the post-sleep `time.monotonic()` reads (the
re-prune and the appended timestamp) both see that instant. -/

/-- `_MAX_REQUESTS_PER_MIN = 8`. -/
def _MAX_REQUESTS_PER_MIN : Nat := 8

/-- The prune loop
`while _req_timestamps and now - _req_timestamps[0] >= window: pop(0)`. -/
def pruneWindow (ts : List ℚ) (now : ℚ) : List ℚ :=
  ts.dropWhile (fun s => decide (60 ≤ now - s))

/-- State after one admission: the timestamp list, and the instant at which
the call returned (equal to the timestamp it appended). -/
structure RLResult where
  stamps : List ℚ
  finish : ℚ
deriving DecidableEq, Repr

/-- The suspend branch of `_rate_limit`: wait until the oldest entry exits
the window plus the `0.05` margin, re-prune at the post-sleep instant, then
record. -/
def rlSuspend (pruned : List ℚ) (now : ℚ) : RLResult :=
  let wait := 60 - (now - pruned.headD 0) + 1 / 20
  let now2 := now + wait
  ⟨pruneWindow pruned now2 ++ [now2], now2⟩

/-- One `_rate_limit()` admission invoked at instant `now`. -/
def _rate_limit (ts : List ℚ) (now : ℚ) : RLResult :=
  let pruned := pruneWindow ts now
  if _MAX_REQUESTS_PER_MIN ≤ pruned.length then rlSuspend pruned now
  else ⟨pruned ++ [now], now⟩

/-- `n` back-to-back admissions: each call is invoked at the instant the
previous one returned. Returns the recorded timestamps in call order. -/
def backToBack : Nat → List ℚ → ℚ → List ℚ
  | 0, _, _ => []
  | Nat.succ n, ts, now =>
    let r := _rate_limit ts now
    r.finish :: backToBack n r.stamps r.finish

/-! ### Helper lemmas about the ledger and chunking -/

/-- Touching the ledger twice on the same day is the same as touching it
once. -/
theorem budget_touch_idem (b : Budget) (today : Nat) :
    _budget_touch (_budget_touch b today) today = _budget_touch b today := by
  simp only [_budget_touch]
  split_ifs <;> simp_all

/-- The touched ledger always carries today's date. -/
theorem budget_touch_date (b : Budget) (today : Nat) :
    (_budget_touch b today).date = some today := by
  simp only [_budget_touch]
  split_ifs <;> simp_all

/-- Spending after a touch is the same as spending directly. -/
theorem budget_spend_touch (b : Budget) (n : Nat) (today : Nat) :
    _budget_spend (_budget_touch b today) n today = _budget_spend b n today := by
  simp only [_budget_spend, budget_touch_idem]

/-- Flattening the chunks recovers the chunked list. -/
theorem chunksOf_flatten (l : List String) : (chunksOf l).flatten = l := by
  generalize hn : l.length = n
  induction n using Nat.strong_induction_on generalizing l with
  | _ n ih =>
    rw [chunksOf]
    by_cases h : l.isEmpty
    · simp_all [List.isEmpty_iff]
    · rw [if_neg h, List.flatten_cons,
        ih (l.drop _CHUNK_SIZE).length ?_ (l.drop _CHUNK_SIZE) rfl,
        List.take_append_drop]
      subst hn
      rcases l with _ | ⟨x, xs⟩
      · simp at h
      · simp [_CHUNK_SIZE]
        omega

/-- The chunk sizes sum to the length of the chunked list. -/
theorem chunksOf_length_sum (l : List String) :
    ((chunksOf l).map List.length).sum = l.length := by
  rw [← List.length_flatten, chunksOf_flatten]

/-! ### Helper lemmas about the rate limiter -/

/-- Pruning a run of identical timestamps the predicate rejects keeps it. -/
theorem dropWhile_replicate_neg {p : ℚ → Bool} {a : ℚ} (h : p a = false)
    (n : Nat) : (List.replicate n a).dropWhile p = List.replicate n a := by
  cases n with
  | zero => rfl
  | succ n => simp [List.replicate_succ, List.dropWhile_cons, h]

/-- Pruning a run of identical timestamps the predicate accepts empties it. -/
theorem dropWhile_replicate_pos {p : ℚ → Bool} {a : ℚ} (h : p a = true)
    (n : Nat) : (List.replicate n a).dropWhile p = [] := by
  induction n with
  | zero => rfl
  | succ n ih => simp [List.replicate_succ, List.dropWhile_cons, h, ih]

/-- An admission finding fewer than the maximum in the window records
immediately. -/
theorem rate_limit_under (ts : List ℚ) (now : ℚ)
    (h : (pruneWindow ts now).length < _MAX_REQUESTS_PER_MIN) :
    _rate_limit ts now = ⟨pruneWindow ts now ++ [now], now⟩ := by
  simp [_rate_limit, Nat.not_le.mpr h]

/-- The suspend branch completes exactly at `oldest + 60 + 1/20`. -/
theorem rlSuspend_finish (pruned : List ℚ) (now : ℚ) :
    (rlSuspend pruned now).finish = pruned.headD 0 + 60 + 1 / 20 := by
  simp only [rlSuspend]
  ring

/-- An admission finding a full window completes exactly at
`oldest + 60 + 1/20`. -/
theorem rate_limit_full (ts : List ℚ) (now : ℚ)
    (h : _MAX_REQUESTS_PER_MIN ≤ (pruneWindow ts now).length) :
    (_rate_limit ts now).finish = (pruneWindow ts now).headD 0 + 60 + 1 / 20 := by
  rw [_rate_limit]
  simp only [if_pos h, rlSuspend_finish]

/-- The post-sleep re-prune drops at least the oldest entry. -/
theorem rlSuspend_length (hd : ℚ) (rest : List ℚ) (now : ℚ) :
    (rlSuspend (hd :: rest) now).stamps.length ≤ rest.length + 1 := by
  simp only [rlSuspend, pruneWindow, List.headD_cons, List.dropWhile_cons]
  have hcond : decide (60 ≤ now + (60 - (now - hd) + 1 / 20) - hd) = true := by
    rw [decide_eq_true_eq]
    linarith
  rw [if_pos hcond]
  have : (rest.dropWhile
      fun s => decide (60 ≤ now + (60 - (now - hd) + 1 / 20) - s)).length
      ≤ rest.length := (List.dropWhile_sublist _).length_le
  simp only [List.length_append, List.length_singleton]
  omega

/-- The timestamp list never grows beyond the per-minute maximum. -/
theorem rate_limit_length (ts : List ℚ) (now : ℚ)
    (h : ts.length ≤ _MAX_REQUESTS_PER_MIN) :
    (_rate_limit ts now).stamps.length ≤ _MAX_REQUESTS_PER_MIN := by
  have hsub : (pruneWindow ts now).length ≤ ts.length :=
    (List.dropWhile_sublist _).length_le
  by_cases hfull : _MAX_REQUESTS_PER_MIN ≤ (pruneWindow ts now).length
  · rcases hp : pruneWindow ts now with _ | ⟨hd, rest⟩
    · rw [hp] at hfull
      simp [_MAX_REQUESTS_PER_MIN] at hfull
    · rw [hp] at hfull
      rw [_rate_limit]
      simp only [hp, if_pos hfull]
      have := rlSuspend_length hd rest now
      have hlen : rest.length + 1 ≤ ts.length := by
        have := congrArg List.length hp
        simp at this
        omega
      simp only [_MAX_REQUESTS_PER_MIN] at h ⊢
      omega
  · rw [rate_limit_under ts now (Nat.not_le.mp hfull)]
    simp only [List.length_append, List.length_singleton]
    omega

/-- Head of a nonempty run of identical timestamps. -/
theorem headD_replicate (n : Nat) (a d : ℚ) (h : n ≠ 0) :
    (List.replicate n a).headD d = a := by
  cases n with
  | zero => exact absurd rfl h
  | succ n => simp [List.replicate_succ]

/-- An immediate re-admission below the cap just appends the timestamp. -/
theorem rate_limit_replicate_under (j : Nat) (t0 : ℚ)
    (hj : j < _MAX_REQUESTS_PER_MIN) :
    _rate_limit (List.replicate j t0) t0 = ⟨List.replicate (j + 1) t0, t0⟩ := by
  have hpr : pruneWindow (List.replicate j t0) t0 = List.replicate j t0 :=
    dropWhile_replicate_neg (by norm_num) j
  rw [rate_limit_under]
  · rw [hpr, ← List.replicate_succ']
  · rw [hpr, List.length_replicate]
    exact hj

/-- A full window sends `_rate_limit` into the suspend branch. -/
theorem rate_limit_eq_suspend (ts : List ℚ) (now : ℚ)
    (h : _MAX_REQUESTS_PER_MIN ≤ (pruneWindow ts now).length) :
    _rate_limit ts now = rlSuspend (pruneWindow ts now) now := by
  rw [_rate_limit]
  exact if_pos h

/-- An immediate re-admission into a full window of identical timestamps
sleeps out the whole window and records at `t0 + 60 + 1/20`. -/
theorem rate_limit_replicate_full (t0 : ℚ) :
    _rate_limit (List.replicate 8 t0) t0 = ⟨[t0 + 1201 / 20], t0 + 1201 / 20⟩ := by
  have hpr : pruneWindow (List.replicate 8 t0) t0 = List.replicate 8 t0 :=
    dropWhile_replicate_neg (by norm_num) 8
  have hfull : _MAX_REQUESTS_PER_MIN
      ≤ (pruneWindow (List.replicate 8 t0) t0).length := by
    rw [hpr, List.length_replicate, _MAX_REQUESTS_PER_MIN]
  rw [rate_limit_eq_suspend _ _ hfull, hpr]
  simp only [rlSuspend, headD_replicate 8 t0 0 (by norm_num), pruneWindow]
  rw [dropWhile_replicate_pos (by rw [decide_eq_true_eq]; linarith) 8]
  have harith : t0 + (60 - (t0 - t0) + 1 / 20) = t0 + 1201 / 20 := by ring
  rw [harith]
  rfl

/-- After `j` back-to-back admissions the window holds `j` copies of the
start instant; the remaining `k + 1` admissions (filling up to the cap and
one more) all record at the start instant except the last, which records at
`t0 + 60 + 1/20`. -/
theorem backToBack_aux (t0 : ℚ) :
    ∀ k j : Nat, j + k = _MAX_REQUESTS_PER_MIN →
    backToBack (k + 1) (List.replicate j t0) t0
      = List.replicate k t0 ++ [t0 + 1201 / 20] := by
  intro k
  induction k with
  | zero =>
    intro j hj
    have hj8 : j = 8 := by simpa [_MAX_REQUESTS_PER_MIN] using hj
    subst hj8
    simp only [backToBack, rate_limit_replicate_full t0]
    simp
  | succ k ih =>
    intro j hj
    have hjlt : j < _MAX_REQUESTS_PER_MIN := by
      simp only [_MAX_REQUESTS_PER_MIN] at hj ⊢
      omega
    have ih' := ih (j + 1) (by simp only [_MAX_REQUESTS_PER_MIN] at hj ⊢; omega)
    simp only [backToBack] at ih'
    simp only [backToBack, rate_limit_replicate_under j t0 hjlt]
    rw [ih']
    rw [List.replicate_succ]
    simp

/-! ### Ledger effect of the two metered entry points -/

/-- `_budget_remaining` returns the touched ledger. -/
theorem budget_remaining_snd (b : Budget) (today : Nat) :
    (_budget_remaining b today).2 = _budget_touch b today := rfl

/-- Spending from the ledger `_budget_remaining` returned is spending from
the original ledger. -/
theorem budget_spend_remaining (b : Budget) (n : Nat) (today : Nat) :
    _budget_spend (_budget_remaining b today).2 n today
      = _budget_spend b n today := by
  rw [budget_remaining_snd, budget_spend_touch]

/-- The single `/quote` lookup either returns `none` leaving the ledger
untouched (no key) or merely date-normalized, or returns a quote, in which
case the pre-check passed and exactly one credit was spent. -/
theorem get_stock_price_cases (apiKey : Bool) (ticker : String) (b : Budget)
    (today : Nat) (resp : Option QuoteResp) :
    ((get_stock_price apiKey ticker b today resp).1 = none
      ∧ (get_stock_price apiKey ticker b today resp).2 = b)
    ∨ ((get_stock_price apiKey ticker b today resp).1 = none
      ∧ (get_stock_price apiKey ticker b today resp).2 = _budget_touch b today)
    ∨ ((get_stock_price apiKey ticker b today resp).1.isSome
      ∧ 0 < (_budget_remaining b today).1
      ∧ (get_stock_price apiKey ticker b today resp).2
          = _budget_spend b 1 today) := by
  simp only [get_stock_price]
  rcases resp with _ | d
  · split_ifs <;>
      first
        | exact Or.inl ⟨rfl, rfl⟩
        | exact Or.inr (Or.inl ⟨rfl, rfl⟩)
  · rcases hc : d.close with _ | close <;>
      simp only [hc] <;>
      split_ifs <;>
      first
        | exact Or.inl ⟨rfl, rfl⟩
        | exact Or.inr (Or.inl ⟨rfl, rfl⟩)
        | exact Or.inr (Or.inr
            ⟨rfl, by omega, budget_spend_remaining b 1 today⟩)

/-- The batch fetch either skips (ledger untouched or merely
date-normalized), or spends exactly the clipped list's length, which the
pre-check bounds by `remaining − reserve`. -/
theorem get_batch_prices_cases (apiKey : Bool) (tickers : List String)
    (b : Budget) (today : Nat) (fetch : List String → List (String × ℚ)) :
    (get_batch_prices apiKey tickers b today fetch).budget = b
    ∨ (get_batch_prices apiKey tickers b today fetch).budget
        = _budget_touch b today
    ∨ (∃ n : Nat,
        (n : Int) ≤ (_budget_remaining b today).1 - TD_RESERVE_CREDITS
        ∧ (get_batch_prices apiKey tickers b today fetch).budget
            = _budget_spend b n today) := by
  simp only [get_batch_prices]
  split_ifs with h1 h2 hclip
  · exact Or.inl rfl
  · exact Or.inr (Or.inl rfl)
  · refine Or.inr (Or.inr
      ⟨((_budget_remaining b today).1 - TD_RESERVE_CREDITS).toNat, by omega, ?_⟩)
    simp only [chunksOf_length_sum, List.length_take]
    rw [show min ((_budget_remaining b today).1 - TD_RESERVE_CREDITS).toNat
          tickers.length
        = ((_budget_remaining b today).1 - TD_RESERVE_CREDITS).toNat by omega]
    exact budget_spend_remaining b _ today
  · refine Or.inr (Or.inr ⟨tickers.length, by omega, ?_⟩)
    simp only [chunksOf_length_sum]
    exact budget_spend_remaining b _ today

/-! ### Sequences of metered-provider operations -/

/-- One metered-provider operation: a single `/quote` lookup or a batch
`/price` fetch, together with its environment (key presence and the
network oracle). -/
inductive TDOp where
  | single (apiKey : Bool) (ticker : String) (resp : Option QuoteResp)
  | batch (apiKey : Bool) (tickers : List String)
      (fetch : List String → List (String × ℚ))

/-- Ledger after executing one operation on calendar date `today`. -/
def tdStep (today : Nat) (b : Budget) : TDOp → Budget
  | .single k t r => (get_stock_price k t b today r).2
  | .batch k ts f => (get_batch_prices k ts b today f).budget

/-- The ledger invariant on date `today`: if the counter belongs to today,
at most the daily quota has been charged. -/
def BudgetOK (today : Nat) (b : Budget) : Prop :=
  b.date = some today → (b.used : Int) ≤ TD_DAILY_LIMIT

/-- The touched ledger satisfies the invariant whenever the original did. -/
theorem budget_touch_ok (today : Nat) (b : Budget) (h : BudgetOK today b) :
    BudgetOK today (_budget_touch b today) := by
  intro _
  simp only [_budget_touch]
  split_ifs with hd
  · exact h hd
  · simp [TD_DAILY_LIMIT]

/-- Every metered-provider operation preserves the ledger invariant. -/
theorem tdStep_ok (today : Nat) (b : Budget) (op : TDOp)
    (h : BudgetOK today b) : BudgetOK today (tdStep today b op) := by
  have htouch : ((_budget_touch b today).used : Int) ≤ TD_DAILY_LIMIT :=
    budget_touch_ok today b h (budget_touch_date b today)
  have hrem : (_budget_remaining b today).1
      = TD_DAILY_LIMIT - (_budget_touch b today).used := rfl
  cases op with
  | single k t r =>
    rcases get_stock_price_cases k t b today r with ⟨_, hb⟩ | ⟨_, hb⟩ | ⟨_, hpre, hb⟩ <;>
      simp only [tdStep, hb]
    · exact h
    · exact budget_touch_ok today b h
    · intro _
      simp only [_budget_spend, budget_touch_idem]
      rw [hrem] at hpre
      simp only [TD_DAILY_LIMIT] at *
      push_cast
      omega
  | batch k ts f =>
    rcases get_batch_prices_cases k ts b today f with hb | hb | ⟨n, hn, hb⟩ <;>
      simp only [tdStep, hb]
    · exact h
    · exact budget_touch_ok today b h
    · intro _
      simp only [_budget_spend, budget_touch_idem]
      rw [hrem] at hn
      simp only [TD_DAILY_LIMIT, TD_RESERVE_CREDITS] at *
      push_cast
      omega

/-- The invariant holds at every intermediate ledger state of a sequence of
same-day operations. -/
theorem tdRun_ok (today : Nat) (ops : List TDOp) (b0 : Budget)
    (h0 : BudgetOK today b0) :
    ∀ b' ∈ ops.scanl (tdStep today) b0, BudgetOK today b' := by
  induction ops generalizing b0 with
  | nil =>
    intro b' hb'
    simp only [List.scanl] at hb'
    simp only [List.mem_singleton] at hb'
    exact hb' ▸ h0
  | cons op rest ih =>
    intro b' hb'
    simp only [List.scanl, List.mem_cons] at hb'
    rcases hb' with rfl | hb'
    · exact h0
    · exact ih (tdStep today b0 op) (tdStep_ok today b0 op h0) b' hb'

/-! ### Ticker search on the new-alert creation path
(`bot/handlers/add_alert.py`, `ticker_received`) -/

/-- The three provider tiers. -/
inductive Provider where
  | moex
  | twelvedata
  | yahoo
deriving DecidableEq, Repr

/-- The provider chain of `ticker_received`:
`stock = await moex_price(ticker)`, then `if not stock: stock = await
td_price(ticker)`. Inputs are the two providers' results; the output is
the found quote (if any) and the providers consulted, in order. -/
def ticker_search (moexResp tdResp : Option Quote) :
    Option Quote × List Provider :=
  match moexResp with
  | some q => (some q, [Provider.moex])
  | none   => (tdResp, [Provider.moex, Provider.twelvedata])

/-! ### Helper lemmas about one monitoring cycle -/

/-- `_process_price` never touches the alert's id. -/
theorem process_price_id (a : Alert) (p now : ℚ) (isOpen : String → Bool) :
    (_process_price a p now isOpen).alert.id = a.id := by
  simp only [_process_price]
  split_ifs <;> rfl

/-- A trigger notification always comes with the deactivated row. -/
theorem process_price_latch (a : Alert) (p now : ℚ) (isOpen : String → Bool)
    (h : (_process_price a p now isOpen).notified = true) :
    (_process_price a p now isOpen).alert.is_active = false := by
  simp only [_process_price] at h ⊢
  split_ifs at h ⊢
  all_goals simp_all [deactivate_alert, update_alert_check]

/-- Cycles never touch an alert's id. -/
theorem processAlert_id (env : CycleEnv) (a : Alert) :
    (processAlert env a).alert.id = a.id := by
  simp only [processAlert]
  split_ifs with h
  · rcases hp : env.prices a.ticker with _ | p <;> simp only [hp]
    exact process_price_id a p env.now env.isOpen
  · rfl

/-- Inactive rows are not selected and pass through a cycle unchanged. -/
theorem processAlert_inactive (env : CycleEnv) (a : Alert)
    (h : a.is_active = false) : processAlert env a = ⟨a, false⟩ := by
  simp [processAlert, h]

/-- A cycle notifies only on rows it deactivates in the same step. -/
theorem processAlert_latch (env : CycleEnv) (a : Alert)
    (h : (processAlert env a).notified = true) :
    (processAlert env a).alert.is_active = false := by
  simp only [processAlert] at h ⊢
  split_ifs at h ⊢ with hsel
  rcases hp : env.prices a.ticker with _ | p <;> simp only [hp] at h ⊢
  · simp at h
  · exact process_price_latch a p env.now env.isOpen h

/-- One cycle preserves "every row with this id is deactivated" and emits
no trigger for such an id. -/
theorem runCycle_latch (env : CycleEnv) (db : List Alert) (i : Nat)
    (h : ∀ a ∈ db, a.id = i → a.is_active = false) :
    i ∉ (runCycle env db).2
    ∧ ∀ a ∈ (runCycle env db).1, a.id = i → a.is_active = false := by
  constructor
  · simp only [runCycle, List.mem_map, List.mem_filter]
    rintro ⟨a, ⟨hmem, hnot⟩, hid⟩
    rw [processAlert_inactive env a (h a hmem hid)] at hnot
    simp at hnot
  · intro a' ha' hid
    simp only [runCycle, List.mem_map] at ha'
    obtain ⟨a, hmem, rfl⟩ := ha'
    have hid' : a.id = i := by rw [← processAlert_id env a]; exact hid
    rw [processAlert_inactive env a (h a hmem hid')]
    exact h a hmem hid'

/-- Iterating cycles preserves the same and accumulates no trigger for a
deactivated id. -/
theorem runCycles_latch (envs : List CycleEnv) (db : List Alert) (i : Nat)
    (h : ∀ a ∈ db, a.id = i → a.is_active = false) :
    i ∉ (runCycles envs db).2
    ∧ ∀ a ∈ (runCycles envs db).1, a.id = i → a.is_active = false := by
  induction envs generalizing db with
  | nil => exact ⟨by simp [runCycles], by simpa [runCycles] using h⟩
  | cons env rest ih =>
    have h1 := runCycle_latch env db i h
    have h2 := ih (runCycle env db).1 h1.2
    refine ⟨?_, h2.2⟩
    simp only [runCycles, List.mem_append]
    rintro (hmem | hmem)
    · exact h1.1 hmem
    · exact h2.1 hmem

/-! ### Claim theorems -/

/-- The two direction constructors are distinct. -/
theorem direction_above_ne_below : Direction.above ≠ Direction.below :=
  fun h => Direction.noConfusion h

/-- C1: while the alert's market is open, `_process_price` fires the
trigger iff `(direction = above ∧ price ≥ target) ∨ (direction = below ∧
price ≤ target)`; in particular an `above` alert with target `100.00`
fires at an observed price of exactly `100.00` and does not fire at
`99.99`. -/
theorem trigger_condition_boundary_inclusive (a : Alert) (price now : ℚ)
    (isOpen : String → Bool) (hopen : isOpen a.exchange = true) :
    ((_process_price a price now isOpen).notified = true ↔
      ((a.direction = .above ∧ a.target_price ≤ price)
        ∨ (a.direction = .below ∧ price ≤ a.target_price)))
    ∧ (_process_price sampleAlert 100 0 (fun _ => true)).notified = true
    ∧ (_process_price sampleAlert (9999 / 100) 0 (fun _ => true)).notified
        = false := by
  refine ⟨?_,
    by norm_num [_process_price, sampleAlert],
    by norm_num [_process_price, sampleAlert, direction_above_ne_below]⟩
  simp only [_process_price]
  rw [if_neg (show ¬¬ isOpen a.exchange = true by simp [hopen])]
  split_ifs with ht
  · exact iff_of_true rfl ht
  · exact iff_of_false (by simp) ht

/-- Witness for C1 at a concrete open market and the boundary price. -/
theorem trigger_condition_boundary_inclusive_witness :
    (((_process_price sampleAlert 100 0 (fun _ => true)).notified = true ↔
      ((sampleAlert.direction = .above ∧ sampleAlert.target_price ≤ 100)
        ∨ (sampleAlert.direction = .below
            ∧ (100 : ℚ) ≤ sampleAlert.target_price)))
    ∧ (_process_price sampleAlert 100 0 (fun _ => true)).notified = true
    ∧ (_process_price sampleAlert (9999 / 100) 0 (fun _ => true)).notified
        = false) :=
  trigger_condition_boundary_inclusive sampleAlert 100 0 (fun _ => true) rfl

/-- C2: processing a fresh price always persists `(price, now)` into the
row — with any market-hours answer, in particular a closed market — while
a notification can be emitted only when the alert's market is open: with
the market closed, `notified` is `false` whatever the price. -/
theorem price_persists_notification_gated (a : Alert) (price now : ℚ)
    (isOpen isOpenClosed : String → Bool)
    (hclosed : isOpenClosed a.exchange = false) :
    (_process_price a price now isOpen).alert.current_price = some price
    ∧ (_process_price a price now isOpen).alert.last_checked = now
    ∧ (_process_price a price now isOpenClosed).notified = false := by
  refine ⟨?_, ?_, ?_⟩
  · simp only [_process_price, update_alert_check, deactivate_alert]
    split_ifs <;> rfl
  · simp only [_process_price, update_alert_check, deactivate_alert]
    split_ifs <;> rfl
  · simp [_process_price, hclosed]

/-- Witness for C2 with a crossing price and a closed market. -/
theorem price_persists_notification_gated_witness :
    (_process_price sampleAlert 150 42 (fun _ => true)).alert.current_price
        = some 150
    ∧ (_process_price sampleAlert 150 42 (fun _ => true)).alert.last_checked
        = 42
    ∧ (_process_price sampleAlert 150 42 (fun _ => false)).notified = false :=
  price_persists_notification_gated sampleAlert 150 42
    (fun _ => true) (fun _ => false) rfl

/-- C3: once every row carrying an id is deactivated, it is excluded from
the active-alert selection (`get_all_active_alerts` reads only
`is_active = 1`), no sequence of monitoring cycles ever emits a trigger
event for that id again, and the rows stay deactivated; moreover any step
that emits a notification deactivates the row in the same step (the
latch). -/
theorem deactivated_alert_never_fires_again (envs : List CycleEnv)
    (db : List Alert) (i : Nat) (env0 : CycleEnv) (a0 : Alert)
    (h : ∀ a ∈ db, a.id = i → a.is_active = false) :
    (∀ a ∈ get_all_active_alerts db, a.id ≠ i)
    ∧ (i ∉ (runCycles envs db).2
      ∧ ∀ a ∈ (runCycles envs db).1, a.id = i → a.is_active = false)
    ∧ ((processAlert env0 a0).notified = true →
        (processAlert env0 a0).alert.is_active = false) :=
  ⟨fun a ha hid => by
      rw [get_all_active_alerts, List.mem_filter] at ha
      exact absurd ha.2 (by simp [h a ha.1 hid]),
    runCycles_latch envs db i h, processAlert_latch env0 a0⟩

/-- Witness for C3: a deactivated sample alert over one concrete cycle. -/
theorem deactivated_alert_never_fires_again_witness :
    (∀ a ∈ get_all_active_alerts [{ sampleAlert with is_active := false }],
        a.id ≠ 1)
    ∧ (1 ∉ (runCycles
        [⟨1000, fun _ => some 200, fun _ => true, fun _ => (60, 180)⟩]
        [{ sampleAlert with is_active := false }]).2
      ∧ ∀ a ∈ (runCycles
        [⟨1000, fun _ => some 200, fun _ => true, fun _ => (60, 180)⟩]
        [{ sampleAlert with is_active := false }]).1,
          a.id = 1 → a.is_active = false)
    ∧ ((processAlert
        ⟨1000, fun _ => some 200, fun _ => true, fun _ => (60, 180)⟩
        sampleAlert).notified = true →
      (processAlert
        ⟨1000, fun _ => some 200, fun _ => true, fun _ => (60, 180)⟩
        sampleAlert).alert.is_active = false) :=
  deactivated_alert_never_fires_again
    [⟨1000, fun _ => some 200, fun _ => true, fun _ => (60, 180)⟩]
    [{ sampleAlert with is_active := false }] 1
    ⟨1000, fun _ => some 200, fun _ => true, fun _ => (60, 180)⟩
    sampleAlert
    (by intro a ha hid; simp only [List.mem_singleton] at ha; subst ha; rfl)

/-- C4: when `available_for_batch() = A` with `0 < A < K`, the metered
batch fetch dispatches exactly the first `A` of the `K` requested tickers
(in input order) and charges exactly `A` credits, for every provider
response `fetch`. -/
theorem batch_clips_to_available_and_charges (tickers : List String)
    (b : Budget) (today : Nat) (fetch : List String → List (String × ℚ))
    (hA : 0 < available_for_batch b today)
    (hK : available_for_batch b today < (tickers.length : Int)) :
    (get_batch_prices true tickers b today fetch).chunksSent.flatten
        = tickers.take (available_for_batch b today).toNat
    ∧ ((get_batch_prices true tickers b today fetch).budget.used : Int)
        = ((_budget_touch b today).used : Int) + available_for_batch b today := by
  rw [available_for_batch] at hA hK ⊢
  have hx : max 0 ((_budget_remaining b today).1 - TD_RESERVE_CREDITS)
      = (_budget_remaining b today).1 - TD_RESERVE_CREDITS := by omega
  rw [hx] at hA hK ⊢
  simp only [get_batch_prices]
  split_ifs with h1 h2
  · exfalso
    rcases h1 with h1 | h1
    · rw [List.isEmpty_iff] at h1
      subst h1
      simp only [List.length_nil, Nat.cast_zero] at hK
      omega
    · exact h1 trivial
  · exfalso
    omega
  · refine ⟨chunksOf_flatten _, ?_⟩
    simp only [chunksOf_length_sum, List.length_take, _budget_spend,
      budget_remaining_snd, budget_touch_idem]
    push_cast
    omega

/-- Witness for C4: two tickers requested with one credit available. -/
theorem batch_clips_to_available_and_charges_witness :
    (0 < available_for_batch ⟨some 5, 699⟩ 5
      ∧ available_for_batch ⟨some 5, 699⟩ 5 < ((["A", "B"].length : Nat) : Int))
    ∧ ((get_batch_prices true ["A", "B"] ⟨some 5, 699⟩ 5
          (fun _ => [])).chunksSent.flatten
        = ["A", "B"].take (available_for_batch ⟨some 5, 699⟩ 5).toNat
      ∧ (((get_batch_prices true ["A", "B"] ⟨some 5, 699⟩ 5
          (fun _ => [])).budget.used : Int))
        = ((_budget_touch ⟨some 5, 699⟩ 5).used : Int)
            + available_for_batch ⟨some 5, 699⟩ 5) :=
  ⟨⟨by decide, by decide⟩,
    batch_clips_to_available_and_charges ["A", "B"] ⟨some 5, 699⟩ 5
      (fun _ => []) (by decide) (by decide)⟩

/-- C5: along any same-day sequence of metered operations, every
intermediate ledger state respects the daily quota of 800 credits, and the
first ledger access after a date change resets the counter: a fresh date
sees the full quota remaining, a reset counter, and a spend records only
its own charge. -/
theorem ledger_quota_and_rollover (today : Nat) (ops : List TDOp)
    (b0 : Budget) (h0 : BudgetOK today b0) :
    (∀ b' ∈ ops.scanl (tdStep today) b0, BudgetOK today b')
    ∧ (∀ b : Budget, b.date ≠ some today →
        (_budget_remaining b today).1 = TD_DAILY_LIMIT
        ∧ (_budget_remaining b today).2.used = 0
        ∧ ∀ n : Nat, (_budget_spend b n today).used = n) := by
  refine ⟨tdRun_ok today ops b0 h0, ?_⟩
  intro b hb
  refine ⟨?_, ?_, ?_⟩ <;>
    simp [_budget_remaining, _budget_spend, _budget_touch, hb]

/-- Witness for C5: one single-quote op from a fresh same-day ledger. -/
theorem ledger_quota_and_rollover_witness :
    (∀ b' ∈ [TDOp.single true "AAPL" none].scanl (tdStep 3) ⟨some 3, 0⟩,
      BudgetOK 3 b')
    ∧ (∀ b : Budget, b.date ≠ some 3 →
        (_budget_remaining b 3).1 = TD_DAILY_LIMIT
        ∧ (_budget_remaining b 3).2.used = 0
        ∧ ∀ n : Nat, (_budget_spend b n 3).used = n) :=
  ledger_quota_and_rollover 3 [TDOp.single true "AAPL" none] ⟨some 3, 0⟩
    (fun _ => by norm_num [TD_DAILY_LIMIT])

/-- C6: when the remaining budget is already exhausted
(`_budget_remaining() ≤ 0`), the batch fetch returns an empty result map,
dispatches no network request, and leaves the ledger exactly as it was. -/
theorem batch_skipped_when_budget_exhausted (apiKey : Bool)
    (tickers : List String) (b : Budget) (today : Nat)
    (fetch : List String → List (String × ℚ))
    (h : (_budget_remaining b today).1 ≤ 0) :
    get_batch_prices apiKey tickers b today fetch = ⟨[], b, []⟩ := by
  have hdate : b.date = some today := by
    by_contra hd
    simp only [_budget_remaining, _budget_touch, if_neg hd] at h
    simp only [TD_DAILY_LIMIT] at h
    omega
  have hb1 : _budget_touch b today = b := by
    simp [_budget_touch, hdate]
  simp only [get_batch_prices]
  split_ifs with h1 h2
  · rfl
  · rw [budget_remaining_snd, hb1]
  all_goals
    exfalso
    simp only [TD_RESERVE_CREDITS] at h2
    omega

/-- Witness for C6: a ledger with the whole quota already used today. -/
theorem batch_skipped_when_budget_exhausted_witness :
    get_batch_prices true ["AAPL"] ⟨some 0, 800⟩ 0 (fun _ => [])
      = ⟨[], ⟨some 0, 800⟩, []⟩ :=
  batch_skipped_when_budget_exhausted true ["AAPL"] ⟨some 0, 800⟩ 0
    (fun _ => []) (by decide)

/-- C7: starting from any reachable window (at most 8 recorded
timestamps), an admission leaves at most 8 recorded timestamps — in
particular at most 8 within the trailing 60-second window of its finish
instant; an admission that finds the window full completes no earlier than
60 seconds after the oldest recorded timestamp; and in the back-to-back
run of 9 admissions from an empty window, the first records at the start
instant and the ninth no earlier than 60 seconds later. -/
theorem rate_limiter_delays_ninth_admission (ts : List ℚ) (now t0 : ℚ)
    (hlen : ts.length ≤ _MAX_REQUESTS_PER_MIN) :
    (_rate_limit ts now).stamps.length ≤ _MAX_REQUESTS_PER_MIN
    ∧ ((_rate_limit ts now).stamps.countP
        (fun s => decide ((_rate_limit ts now).finish - s < 60))
        ≤ _MAX_REQUESTS_PER_MIN)
    ∧ (_MAX_REQUESTS_PER_MIN ≤ (pruneWindow ts now).length →
        (pruneWindow ts now).headD 0 + 60 ≤ (_rate_limit ts now).finish)
    ∧ (backToBack 9 [] t0).headD 0 = t0
    ∧ (backToBack 9 [] t0).getLastD 0 = t0 + 1201 / 20
    ∧ t0 + 60 ≤ t0 + 1201 / 20 := by
  have h9 := backToBack_aux t0 8 0 rfl
  norm_num at h9
  refine ⟨rate_limit_length ts now hlen,
    le_trans (List.countP_le_length _) (rate_limit_length ts now hlen),
    ?_, ?_, ?_, by norm_num⟩
  · intro h
    rw [rate_limit_full ts now h]
    linarith
  · rw [h9]
    have hrep : List.replicate 8 t0 = t0 :: List.replicate 7 t0 := rfl
    rw [hrep]
    rfl
  · rw [h9, List.getLastD_concat]

/-- Witness for C7 at the empty window. -/
theorem rate_limiter_delays_ninth_admission_witness :
    (_rate_limit [] 0).stamps.length ≤ _MAX_REQUESTS_PER_MIN
    ∧ ((_rate_limit [] 0).stamps.countP
        (fun s => decide ((_rate_limit [] 0).finish - s < 60))
        ≤ _MAX_REQUESTS_PER_MIN)
    ∧ (_MAX_REQUESTS_PER_MIN ≤ (pruneWindow [] 0).length →
        (pruneWindow [] 0).headD 0 + 60 ≤ (_rate_limit [] 0).finish)
    ∧ (backToBack 9 [] 5).headD 0 = 5
    ∧ (backToBack 9 [] 5).getLastD 0 = 5 + 1201 / 20
    ∧ (5 : ℚ) + 60 ≤ 5 + 1201 / 20 :=
  rate_limiter_delays_ninth_admission [] 0 5 (by decide)

/-- Witness for C8: MOEX at 12:00 UTC on a Saturday (UTC offset +3, local
weekday Saturday) is closed. -/
theorem weekend_closed_witness : is_market_open "MOEX" 475200 10800 = false :=
  weekend_closed "MOEX" moexCfg 475200 10800 (by decide) (by decide)
    (by norm_num [localWeekday])

/-- C9 counterexample: with both the domestic and the metered lookups
absent, the new-alert search reports failure without ever consulting the
free (Yahoo) provider — contradicting the claimed three-step chain. -/
theorem ticker_search_skips_free_provider :
    (ticker_search none none).1 = none
    ∧ Provider.yahoo ∉ (ticker_search none none).2 := by
  constructor
  · rfl
  · simp [ticker_search]

/-- C9 (amended): the new-alert search consults the domestic provider
first and, only when it is absent, the metered provider, stopping at the
first success; the free provider is never consulted on this path. -/
theorem ticker_search_chain (m t : Option Quote) :
    (∀ q, m = some q → ticker_search m t = (some q, [Provider.moex]))
    ∧ (m = none →
        ticker_search m t = (t, [Provider.moex, Provider.twelvedata]))
    ∧ Provider.yahoo ∉ (ticker_search m t).2 := by
  rcases m with _ | q <;>
    refine ⟨?_, ?_, ?_⟩ <;>
    simp [ticker_search]

/-- Witness for C9 (amended) with both providers absent. -/
theorem ticker_search_chain_witness :
    (∀ q, (none : Option Quote) = some q →
      ticker_search none none = (some q, [Provider.moex]))
    ∧ ((none : Option Quote) = none →
        ticker_search none none
          = (none, [Provider.moex, Provider.twelvedata]))
    ∧ Provider.yahoo ∉ (ticker_search none (none : Option Quote)).2 :=
  ticker_search_chain none none

/-- C10 counterexample: a single-quote lookup that fails (network error)
on a new calendar date still rewrites the ledger: the date-rollover
normalization sets `(date, used)` to `(today, 0)`, so the ledger state is
not left unchanged as claimed. -/
theorem single_quote_rollover_rewrites_ledger :
    (get_stock_price true "AAPL" ⟨some 0, 5⟩ 1 none).1 = none
    ∧ (get_stock_price true "AAPL" ⟨some 0, 5⟩ 1 none).2 ≠ ⟨some 0, 5⟩ := by
  constructor
  · rfl
  · intro h
    have : (5 : Nat) = 0 := by
      have := congrArg Budget.used h
      simpa [get_stock_price, _budget_remaining, _budget_touch] using this.symm
    omega

/-- C10 (amended): the single `/quote` lookup charges a credit only when
it returns a quote. On any failure it returns `none` and leaves the ledger
unchanged apart from the date-rollover normalization any ledger access
performs — in particular, on the same calendar date a failing lookup
leaves the ledger exactly as it was; a successful lookup charges exactly
one credit. The batch fetch, by contrast, charges the same amount whatever
the provider answers. -/
theorem single_quote_charges_only_on_success (apiKey : Bool)
    (ticker : String) (b : Budget) (today : Nat) (resp : Option QuoteResp) :
    ((get_stock_price apiKey ticker b today resp).1 = none →
      ((get_stock_price apiKey ticker b today resp).2 = b
        ∨ (get_stock_price apiKey ticker b today resp).2
            = _budget_touch b today))
    ∧ (b.date = some today →
        (get_stock_price apiKey ticker b today resp).1 = none →
        (get_stock_price apiKey ticker b today resp).2 = b)
    ∧ ((get_stock_price apiKey ticker b today resp).1.isSome →
        (get_stock_price apiKey ticker b today resp).2
          = _budget_spend b 1 today)
    ∧ (∀ tickers fetch fetch2,
        (get_batch_prices true tickers b today fetch).budget
          = (get_batch_prices true tickers b today fetch2).budget) := by
  have htouch : b.date = some today → _budget_touch b today = b := by
    intro hd
    simp [_budget_touch, hd]
  rcases get_stock_price_cases apiKey ticker b today resp with
    ⟨hn, hb⟩ | ⟨hn, hb⟩ | ⟨hs, hpre, hb⟩
  · exact ⟨fun _ => Or.inl hb, fun _ _ => hb, fun hs => by simp_all,
      fun tickers fetch fetch2 => by
        simp only [get_batch_prices]
        split_ifs <;> rfl⟩
  · refine ⟨fun _ => Or.inr hb, fun hd _ => by rw [hb, htouch hd],
      fun hs => by simp_all, fun tickers fetch fetch2 => by
        simp only [get_batch_prices]
        split_ifs <;> rfl⟩
  · exact ⟨fun hn => by simp_all, fun _ hn => by simp_all,
      fun _ => hb, fun tickers fetch fetch2 => by
        simp only [get_batch_prices]
        split_ifs <;> rfl⟩

/-- Witness for C10 (amended): a same-day failing lookup leaves the ledger
untouched. -/
theorem single_quote_charges_only_on_success_witness :
    get_stock_price true "AAPL" ⟨some 3, 7⟩ 3 none
      = (none, ⟨some 3, 7⟩) := by
  have h := (single_quote_charges_only_on_success true "AAPL"
    ⟨some 3, 7⟩ 3 none).2.1 rfl (by rfl)
  have h1 : (get_stock_price true "AAPL" ⟨some 3, 7⟩ 3 none).1 = none := rfl
  calc get_stock_price true "AAPL" ⟨some 3, 7⟩ 3 none
      = ((get_stock_price true "AAPL" ⟨some 3, 7⟩ 3 none).1,
         (get_stock_price true "AAPL" ⟨some 3, 7⟩ 3 none).2) := rfl
    _ = (none, ⟨some 3, 7⟩) := by rw [h, h1]

end TradeBot
